import Mathlib

/-!
# Verification of the blockstore persistence layer

A shallow embedding of `block_store.go` (package `blockstore`): a block
persistence facade over a generic key-value engine, indexing blocks by
content hash and by big-endian height key, tracking the current head both
in memory and under the reserved key "LatestBlock".

Modelling conventions:
* byte strings are `List Nat` (each entry one byte);
* the key-value engine (`DBStore` in Go) is external to the layer, so it is
  modelled as an association list together with per-key fault flags that say
  which `Put`/`Get` calls fail — this captures every behaviour the Go
  interface allows for a single operation sequence;
* the JSON codec (`encoding/json`, an external library call) is a parameter
  of the operations; `jsonCodec` is a concrete instance whose encoding is a
  deterministic injective field serialization, modelling `json.Marshal` and
  `json.Unmarshal` on the block record;
* stateful methods become functions from the facade state to a pair of the
  new state and the returned value.
-/

/-- Byte strings: each list entry models one byte. -/
abbrev Bytes : Type := List Nat

/-- `types.Hash` is a raw 32-byte array; we carry it as bytes, with a
32-byte length hypothesis where the fixed width matters. -/
abbrev Hash : Type := Bytes

/-- The block header (`types.Header`): the fields this layer reads. -/
structure HeaderRec where
  height : Nat
  stateRoot : Bytes
deriving Repr, DecidableEq

/-- The block record (`types.Block`): a header and the header hash used as
content identity. -/
structure Block where
  header : HeaderRec
  headerHash : Hash
deriving Repr, DecidableEq

/-- Modelled from the spec: `util.HashToBytes` turns a raw 32-byte hash into
the byte string used as a store key (identity on the byte representation). -/
def hashToBytes (h : Hash) : Bytes := h

/-- Modelled from the spec: `util.BytesToHash` reads a stored byte string
back as a raw hash (identity on the byte representation). -/
def bytesToHash (b : Bytes) : Hash := b

/-- Modelled from the spec: `common.BlockHash`, the external hashing
collaborator — the block's header hash is its content identity. -/
def BlockHash (block : Block) : Hash := block.headerHash

/-- Block height before the genesis block (`INIT_BLOCK_HEIGHT = 0`). -/
def INIT_BLOCK_HEIGHT : Nat := 0

/-- The reserved head-pointer key: the ASCII bytes of `"LatestBlock"`. -/
def latestBlockKeyBytes : Bytes :=
  [76, 97, 116, 101, 115, 116, 66, 108, 111, 99, 107]

/-- First-match association-list lookup over the engine contents. -/
def lookupKV : List (Bytes × Bytes) → Bytes → Option Bytes
  | [], _ => none
  | (k, v) :: rest, key => if k = key then some v else lookupKV rest key

/-- The key-value engine behind the `DBStore` interface. The engine is an
external collaborator; `failPut`/`failGet` inject the failures its
interface allows, per key. -/
structure Engine where
  data : List (Bytes × Bytes)
  failPut : Bytes → Bool
  failGet : Bytes → Bool

/-- `DBStore.Put`: fails when the fault flag for the key is set, otherwise
records the binding (newest binding shadows older ones). -/
def Engine.put (e : Engine) (key value : Bytes) : Except String Engine :=
  if e.failPut key then .error "engine put failure"
  else .ok { e with data := (key, value) :: e.data }

/-- `DBStore.Get`: fails when the fault flag for the key is set or the key
is absent, otherwise returns the stored value. -/
def Engine.get (e : Engine) (key : Bytes) : Except String Bytes :=
  if e.failGet key then .error "engine io failure"
  else
    match lookupKV e.data key with
    | some v => .ok v
    | none => .error "not found"

/-- The block codec, taken as a parameter of the facade operations: the Go
code delegates `encodeBlock`/`decodeBlock` to the external
`json.Marshal`/`json.Unmarshal`, either of which reports errors. -/
structure Codec where
  encodeBlock : Block → Except String Bytes
  decodeBlock : Bytes → Except String Block

/-- Modelled from the spec: the byte image `json.Marshal` produces for a
block — a deterministic serialization of the fields this layer relies on
(header height, state root, header hash), injective so that decoding can
reproduce them exactly. -/
def jsonMarshalBlock (block : Block) : Bytes :=
  block.header.height ::
    block.header.stateRoot.length ::
      (block.header.stateRoot ++ (block.headerHash.length :: block.headerHash))

/-- Modelled from the spec: `json.Unmarshal` of a block — parses the field
serialization back, failing on any malformed input. -/
def jsonUnmarshalBlock : Bytes → Except String Block
  | height :: n :: rest =>
    if n ≤ rest.length then
      match rest.drop n with
      | m :: rest2 =>
        if m = rest2.length then
          .ok { header := { height := height, stateRoot := rest.take n },
                headerHash := rest2 }
        else .error "unexpected end of input"
      | [] => .error "unexpected end of input"
    else .error "unexpected end of input"
  | _ => .error "unexpected end of input"

/-- The concrete codec used by the Go source: `encodeBlock` wraps
`json.Marshal` (which cannot fail on this record type) and `decodeBlock`
wraps `json.Unmarshal`. -/
def jsonCodec : Codec :=
  { encodeBlock := fun block => .ok (jsonMarshalBlock block)
  , decodeBlock := jsonUnmarshalBlock }

/-- The facade state (`BlockStore`): the engine handle and the in-memory
current-block cache (`currentBlock atomic.Value`, empty = `nil`). -/
structure BlockStore where
  store : Engine
  currentBlock : Option Block

/-- `recordCurrentBlock`: store the block into the in-memory cache. -/
def recordCurrentBlock (blockStore : BlockStore) (block : Block) : BlockStore :=
  { blockStore with currentBlock := some block }

/-- `GetCurrentBlock`: read the in-memory cache (`nil` when empty). -/
def GetCurrentBlock (blockStore : BlockStore) : Option Block :=
  blockStore.currentBlock

/-- `GetCurrentBlockHeight`: the cached block's header height, or
`INIT_BLOCK_HEIGHT` when no current block is known. -/
def GetCurrentBlockHeight (blockStore : BlockStore) : Nat :=
  match GetCurrentBlock blockStore with
  | some block => block.header.height
  | none => INIT_BLOCK_HEIGHT

/-- `GetBlockByHash`: single key lookup plus decode; a failed or empty read
and a failed decode both surface as errors carrying the offending hash. -/
def GetBlockByHash (c : Codec) (blockStore : BlockStore) (hash : Hash) :
    Except String Block :=
  match blockStore.store.get (hashToBytes hash) with
  | .error e => .error ("failed to get block with hash, as: " ++ e)
  | .ok blockByte =>
    match c.decodeBlock blockByte with
    | .error e => .error ("failed to decode block with hash from database as: " ++ e)
    | .ok block => .ok block

/-- `encodeBlockHeight`: the 8-byte big-endian image of a uint64 height,
byte for byte as `binary.BigEndian.PutUint64` lays it out. -/
def encodeBlockHeight (height : Nat) : Bytes :=
  [ height / 2 ^ 56 % 256, height / 2 ^ 48 % 256, height / 2 ^ 40 % 256,
    height / 2 ^ 32 % 256, height / 2 ^ 24 % 256, height / 2 ^ 16 % 256,
    height / 2 ^ 8 % 256, height % 256 ]

/-- `GetBlockByHeight`: resolve height to hash through the height index,
then delegate to `GetBlockByHash`. -/
def GetBlockByHeight (c : Codec) (blockStore : BlockStore) (height : Nat) :
    Except String Block :=
  match blockStore.store.get (encodeBlockHeight height) with
  | .error e => .error ("failed to get block with height, as: " ++ e)
  | .ok blockHashByte => GetBlockByHash c blockStore (bytesToHash blockHashByte)

/-- `WriteBlock`: encode, write `hash -> block`, write `height -> hash`,
update the in-memory cache, then best-effort write the head pointer — a
head-pointer put failure is only logged and the call still succeeds. -/
def WriteBlock (c : Codec) (blockStore : BlockStore) (block : Block) :
    BlockStore × Except String Unit :=
  match c.encodeBlock block with
  | .error e => (blockStore, .error ("Failed to encode block to byte, as: " ++ e))
  | .ok blockByte =>
    let blockHash := BlockHash block
    match blockStore.store.put (hashToBytes blockHash) blockByte with
    | .error e => (blockStore, .error ("Failed to write block to database, as: " ++ e))
    | .ok store1 =>
      match store1.put (encodeBlockHeight block.header.height) (hashToBytes blockHash) with
      | .error _ =>
        ({ blockStore with store := store1 },
         .error "Failed to record the mapping between block and height")
      | .ok store2 =>
        let updated := recordCurrentBlock { blockStore with store := store2 } block
        match store2.put latestBlockKeyBytes (hashToBytes blockHash) with
        | .error _ => (updated, .ok ())
        | .ok store3 => ({ updated with store := store3 }, .ok ())

/-- `loadLatestBlock`: recovery — read the head pointer, resolve it through
`GetBlockByHash`, and populate the cache only when both steps succeed; any
failure leaves the cache as it was (a warning, never an error). -/
def loadLatestBlock (c : Codec) (blockStore : BlockStore) : BlockStore :=
  match blockStore.store.get latestBlockKeyBytes with
  | .error _ => blockStore
  | .ok blockHashByte =>
    match GetBlockByHash c blockStore (bytesToHash blockHashByte) with
    | .error _ => blockStore
    | .ok latestBlock => recordCurrentBlock blockStore latestBlock

/-- `NewBlockStore`: construction — `createDBStore` delegates to the
external engine constructors (leveldb on disk, memorydb in memory), so its
outcome is the parameter here; on success the facade is built with an empty
cache and recovery runs. Construction never fails after the engine opens. -/
def NewBlockStore (c : Codec) (createdStore : Except String Engine) :
    Except String BlockStore :=
  match createdStore with
  | .error e => .error e
  | .ok store => .ok (loadLatestBlock c { store := store, currentBlock := none })

/-- Generic big-endian byte image: `bigEndianBytes n h` is the `n`-byte
big-endian encoding of `h` (most significant byte first). -/
def bigEndianBytes : Nat → Nat → Bytes
  | 0, _ => []
  | n + 1, h => h / 2 ^ (8 * n) % 256 :: bigEndianBytes n h

/-- The numeric value a big-endian byte string denotes. -/
def bigEndianValue : Bytes → Nat
  | [] => 0
  | b :: rest => b * 256 ^ rest.length + bigEndianValue rest

/-- Concrete fixture: a 20-byte state root (the repository test uses a
20-byte state hash). -/
def sampleStateRoot : Bytes := List.replicate 20 5

/-- Concrete fixture: a 32-byte header hash. -/
def sampleHeaderHash : Hash := List.replicate 32 9

/-- Concrete fixture: a second, distinct 32-byte hash. -/
def otherHash : Hash := List.replicate 32 1

/-- Concrete fixture: a block at height 1, as in the repository test. -/
def sampleBlock : Block :=
  { header := { height := 1, stateRoot := sampleStateRoot }
  , headerHash := sampleHeaderHash }

/-- Concrete fixture: a block at height 0 (the genesis height). -/
def sampleBlockZero : Block :=
  { header := { height := 0, stateRoot := sampleStateRoot }
  , headerHash := sampleHeaderHash }

/-- Concrete fixture: an empty engine with no injected faults. -/
def emptyEngine : Engine :=
  { data := [], failPut := fun _ => false, failGet := fun _ => false }

/-- Concrete fixture: a freshly constructed facade over the empty engine. -/
def emptyBlockStore : BlockStore :=
  { store := emptyEngine, currentBlock := none }

/-- Concrete fixture: an engine whose put fails exactly on the head-pointer
key. -/
def engineFailLatest : Engine :=
  { data := []
  , failPut := fun k => decide (k = latestBlockKeyBytes)
  , failGet := fun _ => false }

/-- Concrete fixture: an engine whose put fails exactly on the height key
for height 1. -/
def engineFailHeight : Engine :=
  { data := []
  , failPut := fun k => decide (k = encodeBlockHeight 1)
  , failGet := fun _ => false }

/-- Concrete fixture: an engine holding one undecodable block record under
`otherHash`. -/
def engineBadBlock : Engine :=
  { data := [(hashToBytes otherHash, [])]
  , failPut := fun _ => false, failGet := fun _ => false }

/-- Concrete fixture: an engine whose head pointer names a hash that has no
block record. -/
def engineStaleHead : Engine :=
  { data := [(latestBlockKeyBytes, hashToBytes otherHash)]
  , failPut := fun _ => false, failGet := fun _ => false }

/-- Concrete fixture: a codec whose marshal step always reports an error. -/
def badCodec : Codec :=
  { encodeBlock := fun _ => .error "marshal failure"
  , decodeBlock := fun _ => .error "unmarshal failure" }

/-! ## Helper lemmas -/

lemma ne_of_length_ne {l1 l2 : Bytes} (h : l1.length ≠ l2.length) : l1 ≠ l2 :=
  fun he => h (he ▸ rfl)

lemma take_append_self (l1 l2 : Bytes) : (l1 ++ l2).take l1.length = l1 := by
  induction l1 with
  | nil => rfl
  | cons a t ih => simp [ih]

lemma drop_append_self (l1 l2 : Bytes) : (l1 ++ l2).drop l1.length = l2 := by
  induction l1 with
  | nil => rfl
  | cons a t ih => simp [ih]

lemma jsonUnmarshal_marshal (block : Block) :
    jsonUnmarshalBlock (jsonMarshalBlock block) = .ok block := by
  obtain ⟨⟨height, stateRoot⟩, headerHash⟩ := block
  have hle : stateRoot.length ≤ (stateRoot ++ (headerHash.length :: headerHash)).length := by
    simp
  simp [jsonMarshalBlock, jsonUnmarshalBlock, hle, take_append_self, drop_append_self]

lemma lookupKV_head (d : List (Bytes × Bytes)) (k v : Bytes) :
    lookupKV ((k, v) :: d) k = some v := by
  simp [lookupKV]

lemma lookupKV_skip (d : List (Bytes × Bytes)) (k k' v : Bytes) (h : k' ≠ k) :
    lookupKV ((k', v) :: d) k = lookupKV d k := by
  simp [lookupKV, h]

lemma encodeBlockHeight_length (height : Nat) :
    (encodeBlockHeight height).length = 8 := rfl

lemma latestBlockKeyBytes_length : latestBlockKeyBytes.length = 11 := rfl

lemma writeBlock_success_characterization (c : Codec) (bs : BlockStore) (b : Block)
    (hsucc : (WriteBlock c bs b).2 = .ok ()) :
    (WriteBlock c bs b).1.currentBlock = some b ∧
    (WriteBlock c bs b).1.store.failGet = bs.store.failGet ∧
    ∃ bytes, c.encodeBlock b = .ok bytes ∧
      ((WriteBlock c bs b).1.store.data =
          (latestBlockKeyBytes, hashToBytes (BlockHash b)) ::
            (encodeBlockHeight b.header.height, hashToBytes (BlockHash b)) ::
              (hashToBytes (BlockHash b), bytes) :: bs.store.data ∨
        (WriteBlock c bs b).1.store.data =
          (encodeBlockHeight b.header.height, hashToBytes (BlockHash b)) ::
            (hashToBytes (BlockHash b), bytes) :: bs.store.data) := by
  cases henc : c.encodeBlock b with
  | error e => simp [WriteBlock, henc] at hsucc
  | ok bytes =>
    by_cases h1 : bs.store.failPut (hashToBytes (BlockHash b)) = true
    · simp [WriteBlock, henc, Engine.put, h1] at hsucc
    · by_cases h2 : bs.store.failPut (encodeBlockHeight b.header.height) = true
      · simp [WriteBlock, henc, Engine.put, h1, h2] at hsucc
      · by_cases h3 : bs.store.failPut latestBlockKeyBytes = true
        · refine ⟨?_, ?_, bytes, rfl, Or.inr ?_⟩ <;>
            simp [WriteBlock, henc, Engine.put, h1, h2, h3, recordCurrentBlock]
        · refine ⟨?_, ?_, bytes, rfl, Or.inl ?_⟩ <;>
            simp [WriteBlock, henc, Engine.put, h1, h2, h3, recordCurrentBlock]

lemma encodeBlockHeight_eq_bigEndianBytes (height : Nat) :
    encodeBlockHeight height = bigEndianBytes 8 height := by
  norm_num [encodeBlockHeight, bigEndianBytes]

lemma bigEndianBytes_mod (n : Nat) : ∀ h : Nat,
    bigEndianBytes n (h % 2 ^ (8 * n)) = bigEndianBytes n h := by
  induction n with
  | zero => intro h; rfl
  | succ n ih =>
    intro h
    have hpow : 2 ^ (8 * (n + 1)) = 2 ^ (8 * n) * 256 := by
      rw [show 8 * (n + 1) = 8 * n + 8 by ring, pow_add]; norm_num
    simp only [bigEndianBytes]
    congr 1
    · rw [hpow, Nat.mod_mul_right_div_self]
      exact Nat.mod_mod_of_dvd _ dvd_rfl
    · have hmm : h % 2 ^ (8 * (n + 1)) % 2 ^ (8 * n) = h % 2 ^ (8 * n) :=
        Nat.mod_mod_of_dvd _ (pow_dvd_pow 2 (by omega))
      calc bigEndianBytes n (h % 2 ^ (8 * (n + 1)))
          = bigEndianBytes n (h % 2 ^ (8 * (n + 1)) % 2 ^ (8 * n)) := (ih _).symm
        _ = bigEndianBytes n (h % 2 ^ (8 * n)) := by rw [hmm]
        _ = bigEndianBytes n h := ih h

lemma bigEndianBytes_lex (n : Nat) : ∀ h1 h2 : Nat, h1 < h2 → h2 < 2 ^ (8 * n) →
    List.Lex (fun a b => a < b) (bigEndianBytes n h1) (bigEndianBytes n h2) := by
  induction n with
  | zero =>
    intro h1 h2 hlt hub
    simp only [Nat.mul_zero, pow_zero] at hub
    omega
  | succ n ih =>
    intro h1 h2 hlt hub
    have hpow : 2 ^ (8 * (n + 1)) = 2 ^ (8 * n) * 256 := by
      rw [show 8 * (n + 1) = 8 * n + 8 by ring, pow_add]; norm_num
    have ht : 0 < 2 ^ (8 * n) := pow_pos (by norm_num) _
    have hub2 : h2 < 2 ^ (8 * n) * 256 := hpow ▸ hub
    have hub1 : h1 < 2 ^ (8 * n) * 256 := lt_trans hlt hub2
    have hd1 : h1 / 2 ^ (8 * n) < 256 := Nat.div_lt_of_lt_mul hub1
    have hd2 : h2 / 2 ^ (8 * n) < 256 := Nat.div_lt_of_lt_mul hub2
    have hdle : h1 / 2 ^ (8 * n) ≤ h2 / 2 ^ (8 * n) :=
      Nat.div_le_div_right (le_of_lt hlt)
    simp only [bigEndianBytes]
    rcases lt_or_eq_of_le hdle with hdlt | hdeq
    · exact List.Lex.rel
        (by rw [Nat.mod_eq_of_lt hd1, Nat.mod_eq_of_lt hd2]; exact hdlt)
    · rw [show h1 / 2 ^ (8 * n) % 256 = h2 / 2 ^ (8 * n) % 256 by rw [hdeq]]
      apply List.Lex.cons
      rw [← bigEndianBytes_mod n h1, ← bigEndianBytes_mod n h2]
      apply ih
      · have e1 := Nat.div_add_mod h1 (2 ^ (8 * n))
        have e2 := Nat.div_add_mod h2 (2 ^ (8 * n))
        rw [← e1, ← e2, hdeq] at hlt
        exact Nat.lt_of_add_lt_add_left hlt
      · exact Nat.mod_lt _ ht

lemma bigEndianValue_encodeBlockHeight (height : Nat) :
    bigEndianValue (encodeBlockHeight height) = height % 2 ^ 64 := by
  norm_num [encodeBlockHeight, bigEndianValue]
  omega

/-! ## Claim theorems -/

/-- C1: when the hash-record put and the height-index put both succeed but
the final put of the head-pointer key "LatestBlock" fails, `WriteBlock`
still returns success, and the in-memory current-block cache holds the new
block, so `GetCurrentBlock` returns it. -/
theorem writeBlock_headPointer_failure_still_succeeds (c : Codec)
    (bs : BlockStore) (block : Block) (blockByte : Bytes)
    (henc : c.encodeBlock block = .ok blockByte)
    (h1 : bs.store.failPut (hashToBytes (BlockHash block)) = false)
    (h2 : bs.store.failPut (encodeBlockHeight block.header.height) = false)
    (h3 : bs.store.failPut latestBlockKeyBytes = true) :
    (WriteBlock c bs block).2 = .ok () ∧
    GetCurrentBlock (WriteBlock c bs block).1 = some block := by
  simp [WriteBlock, henc, Engine.put, h1, h2, h3, recordCurrentBlock,
    GetCurrentBlock]

theorem writeBlock_headPointer_failure_still_succeeds_witness :
    (WriteBlock jsonCodec { store := engineFailLatest, currentBlock := none } sampleBlock).2 = .ok () ∧
    GetCurrentBlock (WriteBlock jsonCodec { store := engineFailLatest, currentBlock := none } sampleBlock).1 =
      some sampleBlock :=
  writeBlock_headPointer_failure_still_succeeds jsonCodec
    { store := engineFailLatest, currentBlock := none } sampleBlock
    (jsonMarshalBlock sampleBlock) rfl (by decide) (by decide) (by decide)

/-- C2: when the hash-record put succeeds but the height-index put fails,
`WriteBlock` returns an error, the hash-to-encoded-block entry remains in
the store (no rollback), and neither the in-memory cache nor the
head-pointer key is updated. -/
theorem writeBlock_heightIndex_failure_no_rollback (c : Codec)
    (bs : BlockStore) (block : Block) (blockByte : Bytes)
    (hlen : block.headerHash.length = 32)
    (henc : c.encodeBlock block = .ok blockByte)
    (h1 : bs.store.failPut (hashToBytes (BlockHash block)) = false)
    (h2 : bs.store.failPut (encodeBlockHeight block.header.height) = true) :
    (∃ e, (WriteBlock c bs block).2 = .error e) ∧
    lookupKV (WriteBlock c bs block).1.store.data (hashToBytes (BlockHash block)) =
      some blockByte ∧
    (WriteBlock c bs block).1.currentBlock = bs.currentBlock ∧
    lookupKV (WriteBlock c bs block).1.store.data latestBlockKeyBytes =
      lookupKV bs.store.data latestBlockKeyBytes := by
  have hne : hashToBytes (BlockHash block) ≠ latestBlockKeyBytes :=
    ne_of_length_ne (by simp [hashToBytes, BlockHash, hlen, latestBlockKeyBytes])
  refine ⟨⟨"Failed to record the mapping between block and height", ?_⟩, ?_, ?_, ?_⟩ <;>
    simp [WriteBlock, henc, Engine.put, h1, h2, lookupKV, hne]

theorem writeBlock_heightIndex_failure_no_rollback_witness :
    (∃ e, (WriteBlock jsonCodec { store := engineFailHeight, currentBlock := none } sampleBlock).2 = .error e) ∧
    lookupKV (WriteBlock jsonCodec { store := engineFailHeight, currentBlock := none } sampleBlock).1.store.data
        (hashToBytes (BlockHash sampleBlock)) = some (jsonMarshalBlock sampleBlock) ∧
    (WriteBlock jsonCodec { store := engineFailHeight, currentBlock := none } sampleBlock).1.currentBlock =
      ({ store := engineFailHeight, currentBlock := none } : BlockStore).currentBlock ∧
    lookupKV (WriteBlock jsonCodec { store := engineFailHeight, currentBlock := none } sampleBlock).1.store.data
        latestBlockKeyBytes = lookupKV engineFailHeight.data latestBlockKeyBytes :=
  writeBlock_heightIndex_failure_no_rollback jsonCodec
    { store := engineFailHeight, currentBlock := none } sampleBlock
    (jsonMarshalBlock sampleBlock) (by decide) rfl (by decide) (by decide)

/-- C3: after a `WriteBlock` call that returns success, `GetCurrentBlock`
returns the written block and `GetCurrentBlockHeight` returns its header
height; success includes the runs where the head-pointer write failed, so
the cache update does not depend on that final step. -/
theorem writeBlock_head_tracking (c : Codec) (bs : BlockStore) (block : Block)
    (hsucc : (WriteBlock c bs block).2 = .ok ()) :
    GetCurrentBlock (WriteBlock c bs block).1 = some block ∧
    GetCurrentBlockHeight (WriteBlock c bs block).1 = block.header.height := by
  obtain ⟨hcur, -, -⟩ := writeBlock_success_characterization c bs block hsucc
  constructor
  · simpa [GetCurrentBlock] using hcur
  · simp [GetCurrentBlockHeight, GetCurrentBlock, hcur]

theorem writeBlock_head_tracking_witness :
    GetCurrentBlock (WriteBlock jsonCodec { store := engineFailLatest, currentBlock := none } sampleBlock).1 =
      some sampleBlock ∧
    GetCurrentBlockHeight (WriteBlock jsonCodec { store := engineFailLatest, currentBlock := none } sampleBlock).1 =
      sampleBlock.header.height :=
  writeBlock_head_tracking jsonCodec
    { store := engineFailLatest, currentBlock := none } sampleBlock rfl

/-- C4: after a successful `WriteBlock` of a block with 32-byte header hash
and engine reads working on the two written keys, `GetBlockByHash` at the
block's hash returns a block with the same header hash, and
`GetBlockByHeight` at the block's height returns the same result as that
`GetBlockByHash` call. -/
theorem writeBlock_content_addressing_and_height_index (bs : BlockStore)
    (block : Block)
    (hlen : block.headerHash.length = 32)
    (hg1 : bs.store.failGet (hashToBytes (BlockHash block)) = false)
    (hg2 : bs.store.failGet (encodeBlockHeight block.header.height) = false)
    (hsucc : (WriteBlock jsonCodec bs block).2 = .ok ()) :
    (∃ b', GetBlockByHash jsonCodec (WriteBlock jsonCodec bs block).1 (BlockHash block) = .ok b' ∧
        b'.headerHash = block.headerHash) ∧
    GetBlockByHeight jsonCodec (WriteBlock jsonCodec bs block).1 block.header.height =
      GetBlockByHash jsonCodec (WriteBlock jsonCodec bs block).1 (BlockHash block) := by
  obtain ⟨hcur, hfg, bytes, henc, hdata⟩ :=
    writeBlock_success_characterization jsonCodec bs block hsucc
  have hbytes : bytes = jsonMarshalBlock block := by
    have h := henc
    simp only [jsonCodec] at h
    exact (Except.ok.inj h).symm
  subst hbytes
  have hneHL : latestBlockKeyBytes ≠ hashToBytes (BlockHash block) :=
    (ne_of_length_ne (by simp [hashToBytes, BlockHash, hlen, latestBlockKeyBytes])).symm
  have hneHH : encodeBlockHeight block.header.height ≠ hashToBytes (BlockHash block) :=
    (ne_of_length_ne (by simp [hashToBytes, BlockHash, hlen, encodeBlockHeight])).symm
  have hneLH : latestBlockKeyBytes ≠ encodeBlockHeight block.header.height :=
    ne_of_length_ne (by simp [latestBlockKeyBytes, encodeBlockHeight])
  have hlook : lookupKV (WriteBlock jsonCodec bs block).1.store.data
      (hashToBytes (BlockHash block)) = some (jsonMarshalBlock block) := by
    rcases hdata with hd | hd <;> simp [hd, lookupKV, hneHL, hneHH]
  have hlookh : lookupKV (WriteBlock jsonCodec bs block).1.store.data
      (encodeBlockHeight block.header.height) = some (hashToBytes (BlockHash block)) := by
    rcases hdata with hd | hd <;> simp [hd, lookupKV, hneLH]
  have hdec : jsonCodec.decodeBlock (jsonMarshalBlock block) = .ok block :=
    jsonUnmarshal_marshal block
  have hhash : GetBlockByHash jsonCodec (WriteBlock jsonCodec bs block).1 (BlockHash block) =
      .ok block := by
    simp [GetBlockByHash, Engine.get, hfg, hg1, hlook, hdec]
  refine ⟨⟨block, hhash, rfl⟩, ?_⟩
  simp [GetBlockByHeight, Engine.get, hfg, hg2, hlookh, bytesToHash, hashToBytes]

theorem writeBlock_content_addressing_and_height_index_witness :
    (∃ b', GetBlockByHash jsonCodec (WriteBlock jsonCodec emptyBlockStore sampleBlock).1 (BlockHash sampleBlock) =
        .ok b' ∧ b'.headerHash = sampleBlock.headerHash) ∧
    GetBlockByHeight jsonCodec (WriteBlock jsonCodec emptyBlockStore sampleBlock).1 sampleBlock.header.height =
      GetBlockByHash jsonCodec (WriteBlock jsonCodec emptyBlockStore sampleBlock).1 (BlockHash sampleBlock) :=
  writeBlock_content_addressing_and_height_index emptyBlockStore sampleBlock
    (by decide) rfl rfl rfl

/-- C5: construction never fails because of recovery — once the engine has
opened, `NewBlockStore` succeeds even when the head-pointer key is absent,
unreadable, or names a hash whose block lookup or decode fails; the cache
stays empty, `GetCurrentBlock` returns none and `GetCurrentBlockHeight`
returns the no-history sentinel. -/
theorem newBlockStore_recovery_never_fails (c : Codec) (store : Engine)
    (hbad : (∃ e, store.get latestBlockKeyBytes = .error e) ∨
      (∃ hb, store.get latestBlockKeyBytes = .ok hb ∧
        ∃ e, GetBlockByHash c { store := store, currentBlock := none }
          (bytesToHash hb) = .error e)) :
    ∃ bs, NewBlockStore c (.ok store) = .ok bs ∧
      GetCurrentBlock bs = none ∧ GetCurrentBlockHeight bs = INIT_BLOCK_HEIGHT := by
  refine ⟨loadLatestBlock c { store := store, currentBlock := none }, rfl, ?_⟩
  rcases hbad with ⟨e, he⟩ | ⟨hb, hget, e, hfail⟩
  · simp [loadLatestBlock, he, GetCurrentBlock, GetCurrentBlockHeight,
      INIT_BLOCK_HEIGHT]
  · simp [loadLatestBlock, hget, hfail, GetCurrentBlock, GetCurrentBlockHeight,
      INIT_BLOCK_HEIGHT]

theorem newBlockStore_recovery_never_fails_witness :
    ∃ bs, NewBlockStore jsonCodec (.ok engineStaleHead) = .ok bs ∧
      GetCurrentBlock bs = none ∧ GetCurrentBlockHeight bs = INIT_BLOCK_HEIGHT :=
  newBlockStore_recovery_never_fails jsonCodec engineStaleHead
    (Or.inr ⟨hashToBytes otherHash, rfl,
      "failed to get block with hash, as: not found", rfl⟩)

/-- C6: the codec round-trips — for every block, encoding succeeds and
decoding the encoding reproduces the header height, the state root, and
the header hash exactly. -/
theorem codec_round_trip (block : Block) :
    ∃ bytes decoded, jsonCodec.encodeBlock block = .ok bytes ∧
      jsonCodec.decodeBlock bytes = .ok decoded ∧
      decoded.header.height = block.header.height ∧
      decoded.header.stateRoot = block.header.stateRoot ∧
      decoded.headerHash = block.headerHash :=
  ⟨jsonMarshalBlock block, block, rfl, jsonUnmarshal_marshal block, rfl, rfl, rfl⟩

/-- C7: `GetBlockByHash` on a hash with no store entry and
`GetBlockByHeight` on a height with no index entry both return an error —
never a success with an empty block — and a stored value that fails to
decode surfaces as the same kind of error (an ordinary returned error). -/
theorem getBlock_not_found_behavior (c : Codec) (bs : BlockStore)
    (h1 h2 : Hash) (height : Nat) (v : Bytes) (e1 e2 e3 : String)
    (ha : bs.store.get (hashToBytes h1) = .error e1)
    (hb : bs.store.get (encodeBlockHeight height) = .error e2)
    (hc : bs.store.get (hashToBytes h2) = .ok v)
    (hd : c.decodeBlock v = .error e3) :
    GetBlockByHash c bs h1 = .error ("failed to get block with hash, as: " ++ e1) ∧
    GetBlockByHeight c bs height = .error ("failed to get block with height, as: " ++ e2) ∧
    GetBlockByHash c bs h2 =
      .error ("failed to decode block with hash from database as: " ++ e3) := by
  refine ⟨?_, ?_, ?_⟩ <;> simp [GetBlockByHash, GetBlockByHeight, ha, hb, hc, hd]

theorem getBlock_not_found_behavior_witness :
    GetBlockByHash jsonCodec { store := engineBadBlock, currentBlock := none } sampleHeaderHash =
      .error ("failed to get block with hash, as: " ++ "not found") ∧
    GetBlockByHeight jsonCodec { store := engineBadBlock, currentBlock := none } 5 =
      .error ("failed to get block with height, as: " ++ "not found") ∧
    GetBlockByHash jsonCodec { store := engineBadBlock, currentBlock := none } otherHash =
      .error ("failed to decode block with hash from database as: " ++ "unexpected end of input") :=
  getBlock_not_found_behavior jsonCodec
    { store := engineBadBlock, currentBlock := none }
    sampleHeaderHash otherHash 5 [] "not found" "not found" "unexpected end of input"
    rfl rfl rfl rfl

/-- C8: the height key is exactly 8 bytes, big-endian: the encoding of a
smaller uint64 height is lexicographically strictly smaller, and on the
uint64 range the encoding is injective. -/
theorem encodeBlockHeight_fixed_width_order_preserving (h1 h2 : Nat) :
    (encodeBlockHeight h1).length = 8 ∧
    (h1 < h2 → h2 < 2 ^ 64 →
      List.Lex (fun a b => a < b) (encodeBlockHeight h1) (encodeBlockHeight h2)) ∧
    (h1 < 2 ^ 64 → h2 < 2 ^ 64 → encodeBlockHeight h1 = encodeBlockHeight h2 → h1 = h2) := by
  refine ⟨rfl, ?_, ?_⟩
  · intro hlt hub
    rw [encodeBlockHeight_eq_bigEndianBytes, encodeBlockHeight_eq_bigEndianBytes]
    exact bigEndianBytes_lex 8 h1 h2 hlt (by norm_num; exact hub)
  · intro hb1 hb2 heq
    have hv := congrArg bigEndianValue heq
    rw [bigEndianValue_encodeBlockHeight, bigEndianValue_encodeBlockHeight] at hv
    rwa [Nat.mod_eq_of_lt hb1, Nat.mod_eq_of_lt hb2] at hv

theorem encodeBlockHeight_fixed_width_order_preserving_witness :
    (encodeBlockHeight 3).length = 8 ∧
    List.Lex (fun a b => a < b) (encodeBlockHeight 3) (encodeBlockHeight 5) ∧
    (3 : Nat) = 3 :=
  ⟨(encodeBlockHeight_fixed_width_order_preserving 3 5).1,
   (encodeBlockHeight_fixed_width_order_preserving 3 5).2.1 (by norm_num) (by norm_num),
   (encodeBlockHeight_fixed_width_order_preserving 3 3).2.2 (by norm_num) (by norm_num) rfl⟩

/-- C9: when encoding the block fails at the start of `WriteBlock`, the
call returns an encoding error and the facade state — engine contents and
in-memory cache — is exactly what it was (no mutation). -/
theorem writeBlock_encoding_failure_aborts (c : Codec) (bs : BlockStore)
    (block : Block) (e : String) (henc : c.encodeBlock block = .error e) :
    (WriteBlock c bs block).2 = .error ("Failed to encode block to byte, as: " ++ e) ∧
    (WriteBlock c bs block).1 = bs := by
  refine ⟨?_, ?_⟩ <;> simp [WriteBlock, henc]

theorem writeBlock_encoding_failure_aborts_witness :
    (WriteBlock badCodec emptyBlockStore sampleBlock).2 =
      .error ("Failed to encode block to byte, as: " ++ "marshal failure") ∧
    (WriteBlock badCodec emptyBlockStore sampleBlock).1 = emptyBlockStore :=
  writeBlock_encoding_failure_aborts badCodec emptyBlockStore sampleBlock
    "marshal failure" rfl

/-- C10: after a successful `WriteBlock` of a block at header height 0,
`GetCurrentBlockHeight` returns `INIT_BLOCK_HEIGHT` — the same sentinel it
returns for any facade whose cache is empty — so the interface cannot tell
an empty store from a current block at height 0. -/
theorem height_zero_indistinguishable_from_empty (c : Codec) (bs : BlockStore)
    (block : Block) (hsucc : (WriteBlock c bs block).2 = .ok ())
    (h0 : block.header.height = 0) :
    GetCurrentBlockHeight (WriteBlock c bs block).1 = INIT_BLOCK_HEIGHT ∧
    ∀ e : Engine, GetCurrentBlockHeight { store := e, currentBlock := none } =
      INIT_BLOCK_HEIGHT := by
  obtain ⟨hcur, -, -⟩ := writeBlock_success_characterization c bs block hsucc
  constructor
  · simp [GetCurrentBlockHeight, GetCurrentBlock, hcur, h0, INIT_BLOCK_HEIGHT]
  · intro e
    simp [GetCurrentBlockHeight, GetCurrentBlock]

theorem height_zero_indistinguishable_from_empty_witness :
    GetCurrentBlockHeight (WriteBlock jsonCodec emptyBlockStore sampleBlockZero).1 =
      INIT_BLOCK_HEIGHT ∧
    ∀ e : Engine, GetCurrentBlockHeight { store := e, currentBlock := none } =
      INIT_BLOCK_HEIGHT :=
  height_zero_indistinguishable_from_empty jsonCodec emptyBlockStore
    sampleBlockZero rfl rfl
